import Mathlib

/-!
# DASH: index sets of views (`dash/view/IndexSet.h`) and the reference proxy (`NSMRef.h`)

Shallow embedding of the index-set classes `IndexSetIdentity`, `IndexSetSub`,
`IndexSetLocal` with their common base `IndexSetBase`, of their iterator
`detail::IndexSetIterator`, and of the proxy class `NSMRef`.  The views, the oracle and the
accessor these classes work on are declared in headers that are not among the sources;
they are modelled from the specification, and so are the two-dimensional views that
only the tests of `NViewTest.cc` exercise.

Integer model: `index_type` is the signed index type of the view.  In the index-set
classes its values are embedded as `Int` and the arithmetic of the source (`+`, `-`) is
the arithmetic of `Int`; the properties of these classes are stated under preconditions
that keep every intermediate value between `0` and the size of the domain, hence within
`index_type`.  The iterator takes its offsets as `int`: there the conversion of the
argument to `int` (32 bits) and the arithmetic of `index_type` (64 bits, the default
index type) are explicit, both in two's complement.
-/

set_option autoImplicit false

namespace dash

/-! ## Collaborators that the headers under study include but do not define -/

/-- Modelled from the spec: the Distribution Oracle (`pattern_type` of the origin), whose
header is not among the sources.  `global` maps a local offset back to a global index,
`at_` (the member `at` of the pattern) maps a global index to its local offset, and
`local_size` is the local element count (an unsigned `size_type`). -/
structure Pattern where
  global : Int → Int
  at_ : Int → Int
  local_size : Nat

/-- Modelled from the spec: the Origin, the data-owning structure at the end of a chain of
domain references (`dash::Array`, `dash::Matrix`; their headers are not among the sources).
It exposes its Distribution Oracle and its element count. -/
structure Origin where
  pattern : Pattern
  size : Nat

/-- Modelled from the spec: a View, a non-owning pairing of a domain and an index set
(`dash/view/ViewMod.h` is not among the sources).  `container` is an origin used as a
view, `sub` is the range selection `dash::sub(begin, end, domain)`, `loc` the local
projection `dash::local(domain)`. -/
inductive View where
  | container (o : Origin) : View
  | sub (domain : View) (begin_ end_ : Int) : View
  | loc (domain : View) : View

/-- Modelled from the spec: `dash::origin(view)` follows the domain links to their end
(`dash/view/Origin.h` is not among the sources). -/
def origin : View → Origin
  | .container o => o
  | .sub d _ _ => origin d
  | .loc d => origin d

/-- Modelled from the spec: `dash::domain(view)`, the parent of a view; the domain of an
origin is the origin itself (`dash/view/Domain.h` is not among the sources). -/
def domain : View → View
  | .container o => .container o
  | .sub d _ _ => d
  | .loc d => d

/-- Modelled from the spec: `dash::local(view)`, the local projection of a view; a view
that is already local is returned unchanged (`dash/view/Local.h` is not among the
sources). -/
def local_view : View → View
  | .loc d => .loc d
  | v => .loc v

/-- Modelled from the spec: `view.size()`, the count of valid image positions of a view
(`dash/view/ViewMod.h` is not among the sources). -/
def View.size : View → Int
  | .container o => (o.size : Int)
  | .sub _ b e => e - b
  | .loc d => ((origin d).pattern.local_size : Int)

/-- Nesting depth of a view, used as a termination measure only. -/
def View.depth : View → Nat
  | .container _ => 0
  | .sub d _ _ => d.depth + 1
  | .loc d => d.depth + 1

/-! ## `IndexSetBase` and the three index-set classes -/

/-- Data members of `IndexSetBase<IndexSetType, ViewType>`: the references `_view` and
`_pattern`. -/
structure IndexSetBase where
  _view : View
  _pattern : Pattern

/-- Constructor `IndexSetBase(const ViewType & view)`:
`_view(view), _pattern(dash::origin(view).pattern())`. -/
def IndexSetBase.construct (view : View) : IndexSetBase :=
  { _view := view, _pattern := (origin view).pattern }

/-- Member `IndexSetBase::view()`. -/
def IndexSetBase.view (s : IndexSetBase) : View := s._view

/-- Member `IndexSetBase::pattern()`. -/
def IndexSetBase.pattern (s : IndexSetBase) : Pattern := s._pattern

/-- Class `IndexSetIdentity<ViewType>`: no data members besides those of the base. -/
structure IndexSetIdentity extends IndexSetBase

/-- Class `IndexSetSub<ViewType>`: base plus `_domain_begin_idx`, `_domain_end_idx`. -/
structure IndexSetSub extends IndexSetBase where
  _domain_begin_idx : Int
  _domain_end_idx : Int

/-- Class `IndexSetLocal<ViewType>`: no data members besides those of the base. -/
structure IndexSetLocal extends IndexSetBase

/-- The type `ViewType::index_set_type`: which of the three classes a view carries is
fixed by the view type in the source, by the tag here. -/
inductive IndexSet where
  | identity (s : IndexSetIdentity) : IndexSet
  | sub (s : IndexSetSub) : IndexSet
  | loc (s : IndexSetLocal) : IndexSet

/-- Constructor `IndexSetIdentity(const ViewType & view) : base_t(view)`. -/
def IndexSetIdentity.construct (view : View) : IndexSetIdentity :=
  { toIndexSetBase := IndexSetBase.construct view }

/-- Constructor `IndexSetSub(view, begin, end)`:
`base_t(view), _domain_begin_idx(begin), _domain_end_idx(end)`, with an empty body. -/
def IndexSetSub.construct (view : View) (begin_ end_ : Int) : IndexSetSub :=
  { toIndexSetBase := IndexSetBase.construct view,
    _domain_begin_idx := begin_,
    _domain_end_idx := end_ }

/-- Outcome of running the constructor of `IndexSetSub`: the initialiser list and the empty
body hold no assertion and no throw, so every call completes and hands back the object. -/
def IndexSetSub.try_construct (view : View) (begin_ end_ : Int) : Option IndexSetSub :=
  some (IndexSetSub.construct view begin_ end_)

/-- Constructor `IndexSetLocal(const ViewType & view) : base_t(view)`. -/
def IndexSetLocal.construct (view : View) : IndexSetLocal :=
  { toIndexSetBase := IndexSetBase.construct view }

/-- Modelled from the spec: `view.index_set()`, the index set a view carries
(`dash/view/ViewMod.h` is not among the sources): Identity for an origin, Range for a
range selection, Local for a local projection, each constructed over the view itself. -/
def View.index_set : View → IndexSet
  | .container o => .identity (IndexSetIdentity.construct (.container o))
  | .sub d b e => .sub (IndexSetSub.construct (.sub d b e) b e)
  | .loc d => .loc (IndexSetLocal.construct (.loc d))

/-- Free function `dash::index(v)`: `return v.index_set();`. -/
def index (v : View) : IndexSet := v.index_set

/-- Member `IndexSetBase::domain()`: `return dash::index(dash::domain(_view));`. -/
def IndexSetBase.domain (s : IndexSetBase) : IndexSet := index (dash.domain s._view)

/-- `IndexSetIdentity::operator[]`: `return image_index;`. -/
def IndexSetIdentity.at_ (_s : IndexSetIdentity) (image_index : Int) : Int :=
  image_index

/-- `IndexSetIdentity::size()`: `return dash::domain(*this).size();`.  The overload of
`dash::domain` for an index set is not among the sources; modelled from the spec, the
domain of an Identity index set is the domain of the view it was built over. -/
def IndexSetIdentity.size (s : IndexSetIdentity) : Int :=
  (dash.domain s._view).size

/-- `IndexSetSub::operator[]`: `return _domain_begin_idx + image_index;`. -/
def IndexSetSub.at_ (s : IndexSetSub) (image_index : Int) : Int :=
  s._domain_begin_idx + image_index

/-- `IndexSetSub::size()`: `return _domain_end_idx - _domain_begin_idx;`. -/
def IndexSetSub.size (s : IndexSetSub) : Int :=
  s._domain_end_idx - s._domain_begin_idx

/-- `IndexSetSub::local()`: `return dash::index(dash::local(this->view()));`. -/
def IndexSetSub.local_ (s : IndexSetSub) : IndexSet :=
  index (local_view s.view)

/-- Free function `dash::local(const IndexSetSub<ViewType> &)`:
`return index_set.local();`. -/
def local_IndexSetSub (index_set : IndexSetSub) : IndexSet :=
  index_set.local_

/-- `IndexSetLocal::size()`:
`return static_cast<index_type>(this->pattern().local_size());`. -/
def IndexSetLocal.size (s : IndexSetLocal) : Int :=
  (s.pattern.local_size : Int)

/-- `IndexSetLocal::local()`: `return *this;`. -/
def IndexSetLocal.local_ (s : IndexSetLocal) : IndexSetLocal := s

/-- Free function `dash::local(const IndexSetLocal<ViewType> &)`: `return index_set;`. -/
def local_IndexSetLocal (index_set : IndexSetLocal) : IndexSetLocal := index_set

/-- Free function `dash::local(const IndexSetIdentity<ViewType> &)`:
`return index_set;`. -/
def local_IndexSetIdentity (index_set : IndexSetIdentity) : IndexSetIdentity := index_set

/-- Termination measure of `operator[]` on a tagged index set. -/
def IndexSet.rank : IndexSet → Nat
  | .identity _ => 0
  | .sub _ => 0
  | .loc s => 2 * s._view.depth + 2

mutual
/-- `IndexSetLocal::operator[]`:
`return this->pattern().global(this->pattern().at(this->domain()[0]) + local_index);`. -/
def IndexSetLocal.at_ (s : IndexSetLocal) (local_index : Int) : Int :=
  s.pattern.global (s.pattern.at_ (IndexSet.at_ s.domain 0) + local_index)
termination_by 2 * s._view.depth + 1
decreasing_by
  obtain ⟨⟨v, p⟩⟩ := s
  cases v with
  | container o => simp [IndexSetBase.domain, domain, index, View.index_set, IndexSet.rank]
  | sub d b e =>
    cases d <;> simp [IndexSetBase.domain, domain, index, View.index_set, IndexSet.rank,
      IndexSetLocal.construct, IndexSetBase.construct, View.depth]
    omega
  | loc d =>
    cases d <;> simp [IndexSetBase.domain, domain, index, View.index_set, IndexSet.rank,
      IndexSetLocal.construct, IndexSetBase.construct, View.depth]
    omega
/-- The call `index_set[image_index]` on a view's index set, resolved by the static type
in the source and by the tag here. -/
def IndexSet.at_ (x : IndexSet) (image_index : Int) : Int :=
  match x with
  | .identity s => s.at_ image_index
  | .sub s => s.at_ image_index
  | .loc s => IndexSetLocal.at_ s image_index
termination_by x.rank
decreasing_by
  simp [IndexSet.rank]
end

/-- The base-class part of a view's index set, through which the members of
`IndexSetBase` (`view`, `domain`, `pattern`) are reached. -/
def IndexSet.base : IndexSet → IndexSetBase
  | .identity s => s.toIndexSetBase
  | .sub s => s.toIndexSetBase
  | .loc s => s.toIndexSetBase

/-- The call `index_set.size()` on a view's index set, resolved by the tag. -/
def IndexSet.size : IndexSet → Int
  | .identity s => s.size
  | .sub s => s.size
  | .loc s => s.size

/-! ## Machine integers of the iterator -/

/-- The value an integer has after conversion to `int`, a signed integer of 32 bits in
two's complement. -/
def to_int (x : Int) : Int :=
  (x + 2147483648) % 4294967296 - 2147483648

/-- The integer `x` is a value of `int`. -/
def is_int (x : Int) : Prop :=
  -2147483648 ≤ x ∧ x < 2147483648

/-- The value an integer has in `index_type`, a signed integer of 64 bits in two's
complement. -/
def to_index_type (x : Int) : Int :=
  (x + 9223372036854775808) % 18446744073709551616 - 9223372036854775808

/-- The integer `x` is a value of `index_type`. -/
def is_index_type (x : Int) : Prop :=
  -9223372036854775808 ≤ x ∧ x < 9223372036854775808

/-! ## `detail::IndexSetIterator` -/

/-- Class `detail::IndexSetIterator<IndexSetType>`: the reference `_index_set` and the
position `_pos`. -/
structure IndexSetIterator where
  _index_set : IndexSet
  _pos : Int

/-- Constructor `IndexSetIterator(index_set, position)`:
`_index_set(index_set), _pos(position)`. -/
def IndexSetIterator.construct (index_set : IndexSet) (position : Int) : IndexSetIterator :=
  { _index_set := index_set, _pos := position }

/-- `IndexSetIterator::operator*() const`: `return _index_set[_pos];`. -/
def IndexSetIterator.deref (it : IndexSetIterator) : Int :=
  it._index_set.at_ it._pos

/-- `IndexSetIterator::operator++(int) const`: `return self_t(_index_set, _pos+1);`, the
sum formed in `index_type`. -/
def IndexSetIterator.post_increment (it : IndexSetIterator) : IndexSetIterator :=
  IndexSetIterator.construct it._index_set (to_index_type (it._pos + 1))

/-- `IndexSetIterator::operator--(int) const`: `return self_t(_index_set, _pos-1);`, the
difference formed in `index_type`. -/
def IndexSetIterator.post_decrement (it : IndexSetIterator) : IndexSetIterator :=
  IndexSetIterator.construct it._index_set (to_index_type (it._pos - 1))

/-- `IndexSetIterator::operator+(int i) const`: `return self_t(_index_set, _pos+i);`.  The
parameter is an `int`: the argument of the call is converted to `int`, then the sum is
formed in `index_type`. -/
def IndexSetIterator.plus (it : IndexSetIterator) (i : Int) : IndexSetIterator :=
  IndexSetIterator.construct it._index_set (to_index_type (it._pos + to_int i))

/-- `IndexSetIterator::operator-(int i) const`: `return self_t(_index_set, _pos-i);`.  The
parameter is an `int`: the argument of the call is converted to `int`, then the
difference is formed in `index_type`. -/
def IndexSetIterator.minus (it : IndexSetIterator) (i : Int) : IndexSetIterator :=
  IndexSetIterator.construct it._index_set (to_index_type (it._pos - to_int i))

/-- `IndexSetIterator::pos() const`: `return _pos;`. -/
def IndexSetIterator.pos (it : IndexSetIterator) : Int :=
  it._pos

/-- `IndexSetBase::begin()`: `return iterator(*static_cast<const IndexSetType *>(this), 0);`.
The downcast to the concrete index-set class is the tagged index set itself. -/
def IndexSet.begin_ (s : IndexSet) : IndexSetIterator :=
  IndexSetIterator.construct s 0

/-- `IndexSetBase::end()`: `return iterator(*static_cast<const IndexSetType *>(this),
static_cast<const IndexSetType *>(this)->size());`. -/
def IndexSet.end_ (s : IndexSet) : IndexSetIterator :=
  IndexSetIterator.construct s s.size

/-- A caller that dereferences an iterator and the `n - 1` iterators that follow it, each
obtained from the one before by `+ 1`, and collects the values. -/
def IndexSetIterator.collect (it : IndexSetIterator) : Nat → List Int
  | 0 => []
  | n + 1 => it.deref :: IndexSetIterator.collect (it.plus 1) n

/-- A caller that iterates an index set from `begin()` to `end()`: as many steps as the
two positions are apart. -/
def IndexSet.traverse (s : IndexSet) : List Int :=
  s.begin_.collect (s.end_.pos - s.begin_.pos).toNat

/-! ## `NSMRef`, the reference proxy -/

/-- Modelled from the spec: the Remote Element Accessor `NonSequentialMemoryAccessor<T>`
(its header is not among the sources), a copyable capability bound to one addressable
location: owning unit and offset. -/
structure NonSequentialMemoryAccessor where
  unit : Nat
  offset : Nat
deriving DecidableEq, Repr

/-- Modelled from the spec: the two blocking operations of the accessor, in a monad `m`
that carries their remote effects: `get_value(T*)` is `fetch`, handing back the element
through its out-pointer, and `put_value(T)` is `store`. -/
structure AccessorOps (m : Type → Type) (T : Type) where
  get_value : NonSequentialMemoryAccessor → m T
  put_value : NonSequentialMemoryAccessor → T → m Unit

/-- Class `NSMRef<T>`: its only data member is `m_acc`. -/
structure NSMRef where
  m_acc : NonSequentialMemoryAccessor
deriving DecidableEq, Repr

/-- Constructor `NSMRef(NonSequentialMemoryAccessor<T> acc) : m_acc(acc)`. -/
def NSMRef.construct (acc : NonSequentialMemoryAccessor) : NSMRef :=
  { m_acc := acc }

/-- `NSMRef::operator T() const`: `T t; m_acc.get_value(&t); return t;`. -/
def NSMRef.operator_T {m : Type → Type} [Monad m] {T : Type} (ops : AccessorOps m T)
    (self : NSMRef) : m T := do
  let t ← ops.get_value self.m_acc
  return t

/-- `NSMRef::operator=(const T i)`: `m_acc.put_value(i); return *this;`. -/
def NSMRef.operator_assign {m : Type → Type} [Monad m] {T : Type} (ops : AccessorOps m T)
    (self : NSMRef) (i : T) : m NSMRef := do
  ops.put_value self.m_acc i
  return self

/-- `NSMRef::operator=(const NSMRef<T>& ref)`: `return *this = T(ref);`, the conversion
`T(ref)` being `operator T` of `ref` and the assignment `operator=(const T)`. -/
def NSMRef.operator_assign_ref {m : Type → Type} [Monad m] {T : Type}
    (ops : AccessorOps m T) (self : NSMRef) (ref : NSMRef) : m NSMRef := do
  let t ← NSMRef.operator_T ops ref
  NSMRef.operator_assign ops self t

/-- `NSMRef::get_accessor() const`: `return m_acc;`. -/
def NSMRef.get_accessor (self : NSMRef) : NonSequentialMemoryAccessor :=
  self.m_acc

/-- One remote operation as seen by an instrumented accessor. -/
inductive RemoteOp (T : Type) where
  | fetch (acc : NonSequentialMemoryAccessor) : RemoteOp T
  | store (acc : NonSequentialMemoryAccessor) (value : T) : RemoteOp T
deriving DecidableEq, Repr

/-- State seen through an instrumented accessor: the element stored at every location,
and the remote operations issued so far, oldest first. -/
structure Remote (T : Type) where
  mem : NonSequentialMemoryAccessor → T
  log : List (RemoteOp T)

/-- Modelled from the spec: the instrumented test accessor of the read-count property.
`get_value` records one `fetch` and hands back the element stored at the bound location;
`put_value` records one `store` and writes the element there. -/
def instrumented (T : Type) : AccessorOps (StateM (Remote T)) T where
  get_value acc := do
    let w ← get
    set { w with log := w.log ++ [RemoteOp.fetch acc] }
    return w.mem acc
  put_value acc value := do
    let w ← get
    set ({ mem := Function.update w.mem acc value,
           log := w.log ++ [RemoteOp.store acc value] } : Remote T)

/-- A caller that reads the same proxy `n` times in succession and collects the values,
as in the read-count property. -/
def NSMRef.read_times {m : Type → Type} [Monad m] {T : Type} (ops : AccessorOps m T)
    (self : NSMRef) : Nat → m (List T)
  | 0 => pure []
  | n + 1 => do
    let t ← NSMRef.operator_T ops self
    let ts ← NSMRef.read_times ops self n
    pure (t :: ts)

/-- Communication error of a remote operation: the location that could not be reached. -/
structure CommError where
  acc : NonSequentialMemoryAccessor
deriving DecidableEq, Repr

/-- State seen through an instrumented accessor whose operations may fail: the element
stored at every location, `none` where the owning unit is unreachable or the address is
invalid, and the remote operations issued so far, oldest first. -/
structure FallibleRemote (T : Type) where
  mem : NonSequentialMemoryAccessor → Option T
  log : List (RemoteOp T)

/-- Modelled from the spec: an instrumented accessor whose `fetch` and `store` fail with a
communication error if the owning unit is unreachable or the address is invalid.  Each
operation maps the state before the call to its outcome and the state after it; every
call is recorded, also one that fails, and a failing call changes nothing else. -/
def fallible (T : Type) : AccessorOps (ExceptT CommError (StateM (FallibleRemote T))) T where
  get_value acc := ExceptT.mk fun w =>
    (match w.mem acc with
      | some t => Except.ok t
      | none => Except.error (CommError.mk acc),
     { mem := w.mem, log := w.log ++ [RemoteOp.fetch acc] })
  put_value acc value := ExceptT.mk fun w =>
    match w.mem acc with
    | some _ =>
      (Except.ok (),
       { mem := Function.update w.mem acc (some value),
         log := w.log ++ [RemoteOp.store acc value] })
    | none =>
      (Except.error (CommError.mk acc),
       { mem := w.mem, log := w.log ++ [RemoteOp.store acc value] })

/-! ## Example data -/

/-- A one-dimensional blocked Distribution Oracle as seen from unit `myid`: the unit owns
the `block` consecutive global indices starting at `myid * block`. -/
def blocked_pattern (myid block : Nat) : Pattern where
  global := fun l => (myid * block : Int) + l
  at_ := fun g => g - (myid * block : Int)
  local_size := block

/-- An origin of ten elements, distributed in blocks of five, seen from unit 1. -/
def array10 : View :=
  .container { pattern := blocked_pattern 1 5, size := 10 }

/-- An origin of `2^33` elements, all owned by unit 0. -/
def array_2_33 : View :=
  .container { pattern := blocked_pattern 0 8589934592, size := 8589934592 }

/-- Modelled from the spec: `dash::ViewSpec<2>`, the per-dimension offsets and extents of
a region (its header is not among the sources). -/
structure ViewSpec where
  offsets : Int × Int
  extents : Int × Int
deriving DecidableEq, Repr

/-- Modelled from the spec: `ViewSpec::size()`, the number of elements of a region. -/
def ViewSpec.size (vs : ViewSpec) : Int :=
  vs.extents.1 * vs.extents.2

/-- Modelled from the spec: `CartesianIndexSpace<2>::coords(i, vs)`, the coordinates of
the `i`-th element of the region `vs` in the row-major layout convention (its header is
not among the sources). -/
def cart_coords (i : Nat) (vs : ViewSpec) : Int × Int :=
  (vs.offsets.1 + ((i / vs.extents.2.toNat : Nat) : Int),
   vs.offsets.2 + ((i % vs.extents.2.toNat : Nat) : Int))

/-- Modelled from the spec: `CartesianIndexSpace<2>::at(coords)` over the given extents,
the row-major linear index of a coordinate. -/
def cart_at (extents : Int × Int) (coords : Int × Int) : Int :=
  coords.1 * extents.2 + coords.2

/-- `dash::test::region_values(view, vs)` of `NViewTest.cc`, for a view with the given
extents whose iterator `view.begin()` reads the element `elem index` at `index`:
for every `i` below `vs.size()`, `coords = cart.coords(i, vs)`,
`index = cart.at(coords)`, and the value pushed is `view.begin()[index]`. -/
def region_values {T : Type} (view_extents : Int × Int) (elem : Int → T) (vs : ViewSpec) :
    List T :=
  (List.range vs.size.toNat).map fun i => elem (cart_at view_extents (cart_coords i vs))

/-- Modelled from the spec: a view of a two-dimensional origin, with per-dimension
offsets and extents derived from one Range per axis (`dash/view/NViewMod.h` is not among
the sources).  `origin_extents` is the native shape of the origin. -/
structure NView where
  origin_extents : Int × Int
  spec : ViewSpec
deriving DecidableEq, Repr

/-- Modelled from the spec: a two-dimensional origin (`dash::Matrix<T, 2>`) seen as a
view: offsets zero, extents its native shape. -/
def NView.of_origin (nrows ncols : Int) : NView :=
  { origin_extents := (nrows, ncols),
    spec := { offsets := (0, 0), extents := (nrows, ncols) } }

/-- Modelled from the spec: `dash::sub<dim>(begin, end, domain)`, one Range transform
along axis `dim` (0 for rows, otherwise columns), the other axis untouched: the offset of
the axis grows by `begin`, its extent becomes `end - begin`. -/
def NView.sub (dim : Nat) (begin_ end_ : Int) (domain : NView) : NView :=
  if dim = 0 then
    { origin_extents := domain.origin_extents,
      spec := { offsets := (domain.spec.offsets.1 + begin_, domain.spec.offsets.2),
                extents := (end_ - begin_, domain.spec.extents.2) } }
  else
    { origin_extents := domain.origin_extents,
      spec := { offsets := (domain.spec.offsets.1, domain.spec.offsets.2 + begin_),
                extents := (domain.spec.extents.1, end_ - begin_) } }

/-- Modelled from the spec: `view.offsets()`. -/
def NView.offsets (v : NView) : Int × Int := v.spec.offsets

/-- Modelled from the spec: `view.extents()`. -/
def NView.extents (v : NView) : Int × Int := v.spec.extents

/-- Modelled from the spec: `view.size()`, the number of image positions. -/
def NView.size (v : NView) : Int := v.spec.size

/-- Modelled from the spec: the global index of the origin that the image position `i` of
a view resolves to, image positions and global indices both in row-major order. -/
def NView.global_index (v : NView) (i : Nat) : Int :=
  cart_at v.origin_extents (cart_coords i v.spec)

/-- Modelled from the spec: the global indices a view resolves its image positions
`0, ..., size() - 1` to, in this order. -/
def NView.indices (v : NView) : List Int :=
  (List.range v.size.toNat).map v.global_index

/-- Modelled from the spec: iteration over the values of a view, each image position
resolved to a global index and then to the element `elem index` of the origin. -/
def NView.values {T : Type} (elem : Int → T) (v : NView) : List T :=
  v.indices.map elem

/-! ## Callers of the iterator and of the proxy -/

/-- The expression `it++`: its value, and the iterator `it` after it.  The operator is a
`const` member that builds its result from `_index_set` and `_pos + 1` and assigns to no
member, so `it` is afterwards what it was before. -/
def IndexSetIterator.eval_post_increment (it : IndexSetIterator) :
    IndexSetIterator × IndexSetIterator :=
  (it.post_increment, it)

/-- The expression `it--`: its value, and the iterator `it` after it; the operator is a
`const` member, as `operator++(int)` is. -/
def IndexSetIterator.eval_post_decrement (it : IndexSetIterator) :
    IndexSetIterator × IndexSetIterator :=
  (it.post_decrement, it)

/-- One use of a proxy: a read, the assignment of a value, or the assignment of another
proxy. -/
inductive ProxyUse (T : Type) where
  | read : ProxyUse T
  | assign (value : T) : ProxyUse T
  | assign_ref (ref : NSMRef) : ProxyUse T

/-- A caller that uses a proxy once and then holds the proxy as it is after the use: for
a read the proxy itself, `operator T` being a `const` member; for an assignment the
`*this` that the operator returns. -/
def NSMRef.use {m : Type → Type} [Monad m] {T : Type} (ops : AccessorOps m T)
    (self : NSMRef) : ProxyUse T → m NSMRef
  | .read => do
    let _ ← NSMRef.operator_T ops self
    return self
  | .assign value => NSMRef.operator_assign ops self value
  | .assign_ref ref => NSMRef.operator_assign_ref ops self ref

/-- A caller that uses a proxy for a sequence of reads and assignments, one after the
other, and then holds the proxy as it is after the last of them. -/
def NSMRef.use_all {m : Type → Type} [Monad m] {T : Type} (ops : AccessorOps m T)
    (self : NSMRef) : List (ProxyUse T) → m NSMRef
  | [] => pure self
  | u :: us => do
    let next ← NSMRef.use ops self u
    NSMRef.use_all ops next us

/-! ## Range index sets (`IndexSetSub`) -/

/-- C1: for every view and all bounds with `0 <= begin <= end <= domain().size()`, the
Range index set constructed with `(begin, end)` has `size() == end - begin`, a value
between 0 and the size of the domain, resolves every image index `i` of `[0, size())` to
`begin + i`, and is empty when `begin == end`. -/
theorem IndexSetSub.size_and_at_of_valid_bounds (v : View) (begin_ end_ : Int)
    (h0 : 0 ≤ begin_) (hbe : begin_ ≤ end_)
    (hdom : end_ ≤ (IndexSetSub.construct v begin_ end_).domain.size) :
    (IndexSetSub.construct v begin_ end_).size = end_ - begin_ ∧
    0 ≤ (IndexSetSub.construct v begin_ end_).size ∧
    (IndexSetSub.construct v begin_ end_).size ≤
      (IndexSetSub.construct v begin_ end_).domain.size ∧
    (∀ i : Int, 0 ≤ i → i < (IndexSetSub.construct v begin_ end_).size →
      (IndexSetSub.construct v begin_ end_).at_ i = begin_ + i) ∧
    (begin_ = end_ → (IndexSetSub.construct v begin_ end_).size = 0) := by
  have hsize : (IndexSetSub.construct v begin_ end_).size = end_ - begin_ := rfl
  refine ⟨hsize, ?_, ?_, fun i _ _ => rfl, fun h => ?_⟩
  · rw [hsize]; omega
  · rw [hsize]; omega
  · rw [hsize, h]; omega

/-- Witness of C1: the range `[2, 8)` over an origin of ten elements has size 6 and
resolves the image indices 0 and 5 to 2 and 7. -/
theorem IndexSetSub.size_and_at_of_valid_bounds_witness :
    (0 : Int) ≤ 2 ∧ (2 : Int) ≤ 8 ∧
    (8 : Int) ≤ (IndexSetSub.construct (.sub array10 2 8) 2 8).domain.size ∧
    (IndexSetSub.construct (.sub array10 2 8) 2 8).size = 8 - 2 ∧
    (IndexSetSub.construct (.sub array10 2 8) 2 8).at_ 0 = 2 + 0 ∧
    (IndexSetSub.construct (.sub array10 2 8) 2 8).at_ 5 = 2 + 5 :=
  have hdom : (8 : Int) ≤ (IndexSetSub.construct (.sub array10 2 8) 2 8).domain.size := by
    decide
  have h := IndexSetSub.size_and_at_of_valid_bounds (.sub array10 2 8) 2 8
    (by decide) (by decide) hdom
  ⟨by decide, by decide, hdom, h.1, h.2.2.2.1 0 (by decide) (by decide),
    h.2.2.2.1 5 (by decide) (by decide)⟩

/-- C2, as stated, fails: over an origin of ten elements the bounds `2, 8, 1, 4` meet
the precondition, yet the index set of `Range(1,4)` over `Range(2,8)` resolves the image
indices 0, 1, 2 to 1, 2, 3, while the single `Range(3,6)` resolves them to 3, 4, 5. -/
theorem IndexSetSub.nested_at_is_domain_relative :
    ((0 : Int) ≤ 2 ∧ (2 : Int) ≤ 8 ∧ (8 : Int) ≤ (index array10).size ∧
      (0 : Int) ≤ 1 ∧ (1 : Int) ≤ 4 ∧ (2 : Int) + 4 ≤ 8) ∧
    [(index (.sub (.sub array10 2 8) 1 4)).at_ 0,
      (index (.sub (.sub array10 2 8) 1 4)).at_ 1,
      (index (.sub (.sub array10 2 8) 1 4)).at_ 2] = [1, 2, 3] ∧
    [(index (.sub array10 (2 + 1) (2 + 4))).at_ 0,
      (index (.sub array10 (2 + 1) (2 + 4))).at_ 1,
      (index (.sub array10 (2 + 1) (2 + 4))).at_ 2] = [3, 4, 5] ∧
    (index (.sub (.sub array10 2 8) 1 4)).at_ 0 ≠ 2 + 1 + 0 := by
  refine ⟨by decide, ?_, ?_, ?_⟩ <;>
    simp [index, View.index_set, IndexSet.at_, IndexSetSub.at_, IndexSetSub.construct]

/-- C2, amended: under the same precondition the index set of `Range(b2,e2)` over a view
whose index set is `Range(b1,e1)` has the size of the single `Range(b1+b2, b1+e2)`; its
`at(i) == b2 + i` is a valid image index of the `Range(b1,e1)` view, its own domain, and
resolving it through that domain gives `b1 + b2 + i`, which is `at(i)` of the single
range. -/
theorem IndexSetSub.nested_at_through_domain (d : View) (b1 e1 b2 e2 : Int)
    (h1 : 0 ≤ b1) (_h2 : b1 ≤ e1) (h3 : e1 ≤ (index d).size)
    (h4 : 0 ≤ b2) (h5 : b2 ≤ e2) (h6 : b1 + e2 ≤ e1) :
    (index (.sub (.sub d b1 e1) b2 e2)).size = (index (.sub d (b1 + b2) (b1 + e2))).size ∧
    (index (.sub (.sub d b1 e1) b2 e2)).base.domain = index (.sub d b1 e1) ∧
    (index (.sub d (b1 + b2) (b1 + e2))).base.domain = index d ∧
    (0 ≤ b1 + b2 ∧ b1 + b2 ≤ b1 + e2 ∧ b1 + e2 ≤ (index d).size) ∧
    ∀ i : Int, 0 ≤ i → i < e2 - b2 →
      (index (.sub (.sub d b1 e1) b2 e2)).at_ i = b2 + i ∧
      0 ≤ (index (.sub (.sub d b1 e1) b2 e2)).at_ i ∧
      (index (.sub (.sub d b1 e1) b2 e2)).at_ i < (index (.sub d b1 e1)).size ∧
      (index (.sub d b1 e1)).at_ ((index (.sub (.sub d b1 e1) b2 e2)).at_ i)
        = b1 + b2 + i ∧
      (index (.sub d (b1 + b2) (b1 + e2))).at_ i = b1 + b2 + i := by
  refine ⟨?_, rfl, rfl, ⟨by omega, by omega, by omega⟩, fun i hi0 hi => ?_⟩
  · simp [index, View.index_set, IndexSet.size, IndexSetSub.size, IndexSetSub.construct]
  · simp only [index, View.index_set, IndexSet.at_, IndexSetSub.at_, IndexSetSub.construct,
      IndexSet.size, IndexSetSub.size]
    refine ⟨trivial, by omega, by omega, by omega, trivial⟩

/-- Witness of amended C2: over an origin of ten elements `Range(1,4)` over `Range(2,8)`
has the size of `Range(3,6)`, and its image index 0 resolves to 1 in its domain and from
there to the global index 3. -/
theorem IndexSetSub.nested_at_through_domain_witness :
    ((0 : Int) ≤ 2 ∧ (2 : Int) ≤ 8 ∧ (8 : Int) ≤ (index array10).size ∧
      (0 : Int) ≤ 1 ∧ (1 : Int) ≤ 4 ∧ (2 : Int) + 4 ≤ 8) ∧
    (index (.sub (.sub array10 2 8) 1 4)).size = (index (.sub array10 (2 + 1) (2 + 4))).size ∧
    (index (.sub (.sub array10 2 8) 1 4)).at_ 0 = 1 + 0 ∧
    (index (.sub array10 2 8)).at_ ((index (.sub (.sub array10 2 8) 1 4)).at_ 0)
      = 2 + 1 + 0 ∧
    (index (.sub array10 (2 + 1) (2 + 4))).at_ 0 = 2 + 1 + 0 :=
  have h := IndexSetSub.nested_at_through_domain array10 2 8 1 4
    (by decide) (by decide) (by decide) (by decide) (by decide) (by decide)
  ⟨by decide, h.1, (h.2.2.2.2 0 (by decide) (by decide)).1,
    (h.2.2.2.2 0 (by decide) (by decide)).2.2.2.1,
    (h.2.2.2.2 0 (by decide) (by decide)).2.2.2.2⟩

/-! ## Local index sets (`IndexSetLocal`) -/

/-- C3: for every Local index set `s`, with oracle `P = s.pattern()` and domain index set
`D = s.domain()`, and every local index `i`: `s[i] == P.global(P.at(D[0]) + i)`.  For the
index set of a local projection `dash::local(d)` the oracle is that of the origin of `d`
and the domain index set is `dash::index(d)`. -/
theorem IndexSetLocal.at_eq_global_of_local_offset (s : IndexSetLocal) (d : View)
    (i : Int) :
    s.at_ i = s.pattern.global (s.pattern.at_ (s.domain.at_ 0) + i) ∧
    (index (.loc d)).at_ i =
      (origin d).pattern.global ((origin d).pattern.at_ ((index d).at_ 0) + i) := by
  constructor
  · rw [IndexSetLocal.at_]
  · simp only [index, View.index_set, IndexSet.at_]
    rw [IndexSetLocal.at_]
    rfl

/-- C4: the Local index set constructed over any view `v` has `size()` equal to the local
element count of the oracle of the origin of `v`; so has the index set of the local
projection of `v`, and in particular that of `local(sub<0>(0, extent0, mat))`. -/
theorem IndexSetLocal.size_eq_local_size (v : View) (mat : Origin) (extent0 : Int) :
    (IndexSetLocal.construct v).size = ((origin v).pattern.local_size : Int) ∧
    (index (local_view v)).size = ((origin v).pattern.local_size : Int) ∧
    (index (local_view (.sub (.container mat) 0 extent0))).size
      = (mat.pattern.local_size : Int) := by
  refine ⟨rfl, ?_, rfl⟩
  cases v <;> rfl

/-! ## Identity index sets (`IndexSetIdentity`) -/

/-- C5: for every Identity index set `s`: `size()` is the size of its domain, and
`s[i] == i` for every `i` in `[0, domain.size())`; the Identity index set of an origin has
the origin's element count as size. -/
theorem IndexSetIdentity.size_and_at (s : IndexSetIdentity) (o : Origin) :
    s.size = (domain s.view).size ∧
    (∀ i : Int, 0 ≤ i → i < (domain s.view).size → s.at_ i = i) ∧
    (index (.container o)).size = (o.size : Int) ∧
    (∀ i : Int, 0 ≤ i → i < (o.size : Int) → (index (.container o)).at_ i = i) := by
  refine ⟨rfl, fun i _ _ => rfl, rfl, fun i _ _ => ?_⟩
  simp [index, View.index_set, IndexSet.at_, IndexSetIdentity.at_]

/-- Witness of C5: the Identity index set of an origin of ten elements has size 10 and
resolves the image index 7 to 7. -/
theorem IndexSetIdentity.size_and_at_witness :
    (IndexSetIdentity.construct array10).size = 10 ∧
    (IndexSetIdentity.construct array10).at_ 7 = 7 ∧
    (index array10).at_ 7 = 7 :=
  have h := IndexSetIdentity.size_and_at (IndexSetIdentity.construct array10)
    { pattern := blocked_pattern 1 5, size := 10 }
  ⟨h.1, h.2.1 7 (by decide) (by decide), h.2.2.2 7 (by decide) (by decide)⟩

/-! ## Construction of a Range index set with bounds outside the domain -/

/-- C9, as stated, fails: over an origin of ten elements the bounds `(5, 2)`, `(-1, 3)`
and `(4, 12)` each violate `0 <= begin <= end <= domain().size()`, yet construction
completes and yields an index set in each case. -/
theorem IndexSetSub.try_construct_accepts_invalid_bounds :
    (¬ ((0 : Int) ≤ 5 ∧ (5 : Int) ≤ 2 ∧
        (2 : Int) ≤ (IndexSetSub.construct (.sub array10 5 2) 5 2).domain.size) ∧
      IndexSetSub.try_construct (.sub array10 5 2) 5 2 ≠ none) ∧
    (¬ ((0 : Int) ≤ -1 ∧ (-1 : Int) ≤ 3 ∧
        (3 : Int) ≤ (IndexSetSub.construct (.sub array10 (-1) 3) (-1) 3).domain.size) ∧
      IndexSetSub.try_construct (.sub array10 (-1) 3) (-1) 3 ≠ none) ∧
    (¬ ((0 : Int) ≤ 4 ∧ (4 : Int) ≤ 12 ∧
        (12 : Int) ≤ (IndexSetSub.construct (.sub array10 4 12) 4 12).domain.size) ∧
      IndexSetSub.try_construct (.sub array10 4 12) 4 12 ≠ none) := by
  refine ⟨⟨by decide, ?_⟩, ⟨by decide, ?_⟩, ⟨by decide, ?_⟩⟩ <;>
    simp [IndexSetSub.try_construct]

/-- C9, amended: construction of a Range index set checks no bounds.  For every view and
all `begin`, `end`, also those that violate `0 <= begin <= end <= domain().size()`, it
completes and yields an index set over that view which stores `begin` and `end`
unchanged: the bounds are never clamped. -/
theorem IndexSetSub.try_construct_stores_bounds (v : View) (begin_ end_ : Int) :
    ∃ s : IndexSetSub, IndexSetSub.try_construct v begin_ end_ = some s ∧
      s.view = v ∧ s._domain_begin_idx = begin_ ∧ s._domain_end_idx = end_ :=
  ⟨IndexSetSub.construct v begin_ end_, rfl, rfl, rfl, rfl⟩

/-! ## Localization of a Range index set -/

/-- C10: for every Range index set `s`, the free function `local(s)` and the member
`s.local()` both equal `index(local(s.view()))`; two Range index sets over the same view
have the same localization whatever their bounds. -/
theorem IndexSetSub.local_eq_index_local_view (s : IndexSetSub) (v : View)
    (b e b2 e2 : Int) :
    local_IndexSetSub s = index (local_view s.view) ∧
    s.local_ = index (local_view s.view) ∧
    local_IndexSetSub (IndexSetSub.construct v b e) = index (local_view v) ∧
    local_IndexSetSub (IndexSetSub.construct v b e)
      = local_IndexSetSub (IndexSetSub.construct v b2 e2) ∧
    (IndexSetSub.construct v b e).local_ = (IndexSetSub.construct v b2 e2).local_ :=
  ⟨rfl, rfl, rfl, rfl, rfl⟩

/-! ## The reference proxy (`NSMRef`) over the instrumented accessor -/

/-- One read through the proxy, run over the instrumented accessor from state `w`. -/
theorem NSMRef.operator_T_run {T : Type} (r : NSMRef) (w : Remote T) :
    (r.operator_T (instrumented T)).run w
      = (w.mem r.m_acc, { mem := w.mem, log := w.log ++ [RemoteOp.fetch r.m_acc] }) :=
  rfl

/-- C6: a read through the proxy issues exactly one `fetch` on its accessor and no
`store`, leaves the stored elements as they are and returns the fetched element; `N`
successive reads of the same proxy issue exactly `N` such fetches and nothing else, each
returning the fetched element. -/
theorem NSMRef.read_issues_one_fetch {T : Type} (r : NSMRef) (w : Remote T) (N : Nat) :
    (r.operator_T (instrumented T)).run w
      = (w.mem r.m_acc, { mem := w.mem, log := w.log ++ [RemoteOp.fetch r.m_acc] }) ∧
    (r.read_times (instrumented T) N).run w
      = (List.replicate N (w.mem r.m_acc),
         { mem := w.mem, log := w.log ++ List.replicate N (RemoteOp.fetch r.m_acc) }) ∧
    ((r.read_times (instrumented T) N).run w).2.log.length = w.log.length + N := by
  have hN : ∀ (n : Nat) (w : Remote T), (r.read_times (instrumented T) n).run w
      = (List.replicate n (w.mem r.m_acc),
         { mem := w.mem, log := w.log ++ List.replicate n (RemoteOp.fetch r.m_acc) }) := by
    intro n
    induction n with
    | zero => intro w; simp [NSMRef.read_times, StateT.run, pure, StateT.pure]
    | succ n ih =>
      intro w
      have step : (r.read_times (instrumented T) (n + 1)).run w
          = (((r.operator_T (instrumented T)).run w).1 ::
              ((r.read_times (instrumented T) n).run
                ((r.operator_T (instrumented T)).run w).2).1,
             ((r.read_times (instrumented T) n).run
                ((r.operator_T (instrumented T)).run w).2).2) := rfl
      rw [step, NSMRef.operator_T_run, ih]
      simp [List.replicate_succ]
  refine ⟨rfl, hN N w, ?_⟩
  rw [hN N w]
  simp

/-- C7: assigning a value `v` through the proxy issues exactly one `store` on its
accessor, with argument `v`, and no `fetch`, and returns the proxy itself. -/
theorem NSMRef.assign_issues_one_store {T : Type} (r : NSMRef) (v : T) (w : Remote T) :
    (r.operator_assign (instrumented T) v).run w
      = (r, { mem := Function.update w.mem r.m_acc v,
              log := w.log ++ [RemoteOp.store r.m_acc v] }) :=
  rfl

/-- C8: the proxy-to-proxy assignment `dst = src` issues exactly two remote operations,
first one `fetch` on the accessor of `src`, then one `store` on the accessor of `dst`
whose argument is the fetched element; it returns `dst`. -/
theorem NSMRef.assign_ref_issues_fetch_then_store {T : Type} (dst src : NSMRef)
    (w : Remote T) :
    (dst.operator_assign_ref (instrumented T) src).run w
      = (dst, { mem := Function.update w.mem dst.m_acc (w.mem src.m_acc),
                log := w.log ++ [RemoteOp.fetch src.m_acc,
                                 RemoteOp.store dst.m_acc (w.mem src.m_acc)] }) := by
  have step : (dst.operator_assign_ref (instrumented T) src).run w
      = (dst.operator_assign (instrumented T)
          ((src.operator_T (instrumented T)).run w).1).run
          ((src.operator_T (instrumented T)).run w).2 := rfl
  rw [step, NSMRef.operator_T_run]
  simp [NSMRef.operator_assign, instrumented, StateT.run, bind, StateT.bind, get, getThe,
    MonadStateOf.get, StateT.get, set, StateT.set, pure, StateT.pure]

/-! ## Localization of a Local index set -/

/-- C11: localizing a Local index set is idempotent: the free function `local(s)` and the
member `s.local()` return `s` itself, so `local(local(s)) == local(s) == s`, with the same
`size()` and the same `at(i)` for every `i`. -/
theorem IndexSetLocal.local_idempotent (s : IndexSetLocal) (i : Int) :
    local_IndexSetLocal s = s ∧ s.local_ = s ∧
    local_IndexSetLocal (local_IndexSetLocal s) = local_IndexSetLocal s ∧
    s.local_.local_ = s.local_ ∧
    (local_IndexSetLocal s).size = s.size ∧ s.local_.size = s.size ∧
    (local_IndexSetLocal s).at_ i = s.at_ i ∧ s.local_.at_ i = s.at_ i :=
  ⟨rfl, rfl, rfl, rfl, rfl, rfl, rfl, rfl⟩

/-! ## Iteration over an index set -/

/-- Conversion to `int` keeps a value of `int`. -/
theorem to_int_of_is_int (x : Int) (h : is_int x) : to_int x = x := by
  unfold is_int at h
  unfold to_int
  omega

/-- Arithmetic of `index_type` is exact where the result is a value of `index_type`. -/
theorem to_index_type_of_is_index_type (x : Int) (h : is_index_type x) :
    to_index_type x = x := by
  unfold is_index_type at h
  unfold to_index_type
  omega

/-- Dereferencing `n` successive iterators yields the images of `n` successive
positions, as long as the positions are values of `index_type`. -/
theorem IndexSetIterator.collect_eq_map (n : Nat) (it : IndexSetIterator)
    (hlo : is_index_type it._pos) (hhi : is_index_type (it._pos + (n : Int))) :
    it.collect n
      = (List.range n).map (fun k : Nat => it._index_set.at_ (it._pos + (k : Int))) := by
  induction n generalizing it with
  | zero => rfl
  | succ n ih =>
    have hstep : (it.plus 1)._pos = it._pos + 1 := by
      have h1 : to_int 1 = 1 := by decide
      simp only [IndexSetIterator.plus, IndexSetIterator.construct, h1]
      apply to_index_type_of_is_index_type
      unfold is_index_type at *
      push_cast at hhi
      omega
    have hset : (it.plus 1)._index_set = it._index_set := rfl
    have hlo2 : is_index_type (it.plus 1)._pos := by
      rw [hstep]
      unfold is_index_type at *
      push_cast at hhi
      omega
    have hhi2 : is_index_type ((it.plus 1)._pos + (n : Int)) := by
      rw [hstep]
      unfold is_index_type at *
      push_cast at hhi
      omega
    rw [IndexSetIterator.collect, ih (it.plus 1) hlo2 hhi2, List.range_succ_eq_map, hstep,
      hset]
    simp only [List.map_cons, List.map_map, IndexSetIterator.deref]
    refine congrArg₂ _ (by simp) (List.map_congr_left fun k _ => ?_)
    simp only [Function.comp, Nat.succ_eq_add_one, Nat.cast_add, Nat.cast_one]
    congr 1
    omega

/-- C12, as stated, fails: the Range index set `[0, 2^33)` over an origin of `2^33`
elements holds the image index `k = 2^32 + 3`, yet `begin() + k` dereferences to `at(3)`
and not to `at(k)`, the argument of `operator+(int)` being converted to `int`. -/
theorem IndexSet.begin_plus_converts_to_int :
    (0 : Int) ≤ 4294967299 ∧
    (4294967299 : Int) < (index (.sub array_2_33 0 8589934592)).size ∧
    ((index (.sub array_2_33 0 8589934592)).begin_.plus 4294967299).deref = 3 ∧
    (index (.sub array_2_33 0 8589934592)).at_ 4294967299 = 4294967299 ∧
    ((index (.sub array_2_33 0 8589934592)).begin_.plus 4294967299).deref
      ≠ (index (.sub array_2_33 0 8589934592)).at_ 4294967299 := by
  have hpos : ((index (.sub array_2_33 0 8589934592)).begin_.plus 4294967299)._pos = 3 := by
    decide
  have hd : ((index (.sub array_2_33 0 8589934592)).begin_.plus 4294967299).deref = 3 := by
    rw [IndexSetIterator.deref, hpos]
    simp [index, View.index_set, IndexSet.begin_, IndexSetIterator.plus,
      IndexSetIterator.construct, IndexSet.at_, IndexSetSub.at_, IndexSetSub.construct]
  have ha : (index (.sub array_2_33 0 8589934592)).at_ 4294967299 = 4294967299 := by
    simp [index, View.index_set, IndexSet.at_, IndexSetSub.at_, IndexSetSub.construct]
  refine ⟨by decide, by decide, hd, ha, ?_⟩
  rw [hd, ha]
  decide

/-- C12, amended: for every index set `s`, `s.begin()` is at position 0 and `s.end()` at
position `s.size()`; for every `k` in `[0, s.size())` that is a value of `int`,
dereferencing `s.begin() + k` yields `s[k]`; where `s.size()` is a value of `index_type`,
iterating from `begin()` to `end()` in steps of `+ 1` yields `s[0], ..., s[size()-1]`,
in this order and nothing else; the iterator reached at the end still refers to `s`, so a
second traversal yields the same sequence; for an empty Range `begin()` and `end()` have
the same position. -/
theorem IndexSet.iteration_yields_at (s : IndexSet) (v : View) (b : Int) :
    s.begin_.pos = 0 ∧ s.end_.pos = s.size ∧
    s.begin_._index_set = s ∧ s.end_._index_set = s ∧
    (∀ k : Int, 0 ≤ k → k < s.size → is_int k → (s.begin_.plus k).deref = s.at_ k) ∧
    (is_index_type s.size →
      s.traverse = (List.range s.size.toNat).map (fun k : Nat => s.at_ (k : Int)) ∧
      s.traverse.length = s.size.toNat) ∧
    (s.begin_.plus s.size)._index_set.traverse = s.traverse ∧
    (IndexSet.sub (IndexSetSub.construct v b b)).begin_.pos
      = (IndexSet.sub (IndexSetSub.construct v b b)).end_.pos ∧
    (IndexSet.sub (IndexSetSub.construct v b b)).traverse = [] := by
  have htr : is_index_type s.size →
      s.traverse = (List.range s.size.toNat).map (fun k : Nat => s.at_ (k : Int)) := by
    intro hs
    have h0 : is_index_type (0 : Int) := by unfold is_index_type; omega
    have hn : is_index_type ((0 : Int) + ((s.size - 0).toNat : Int)) := by
      unfold is_index_type at *
      omega
    rw [IndexSet.traverse]
    simp only [IndexSet.begin_, IndexSet.end_, IndexSetIterator.construct,
      IndexSetIterator.pos]
    rw [IndexSetIterator.collect_eq_map _ _ h0 hn]
    simp
  refine ⟨rfl, rfl, rfl, rfl, fun k hk0 _ hk => ?_, fun hs => ⟨htr hs, ?_⟩, rfl, ?_, ?_⟩
  · have hk2 : is_index_type (0 + k) := by
      unfold is_int at hk
      unfold is_index_type
      omega
    simp only [IndexSet.begin_, IndexSetIterator.plus, IndexSetIterator.construct,
      IndexSetIterator.deref, to_int_of_is_int k hk,
      to_index_type_of_is_index_type (0 + k) hk2]
    simp
  · rw [htr hs]; simp
  · simp [IndexSet.begin_, IndexSet.end_, IndexSetIterator.construct, IndexSetIterator.pos,
      IndexSet.size, IndexSetSub.size, IndexSetSub.construct]
  · simp [IndexSet.traverse, IndexSet.begin_, IndexSet.end_, IndexSetIterator.construct,
      IndexSetIterator.pos, IndexSet.size, IndexSetSub.size, IndexSetSub.construct,
      IndexSetIterator.collect]

/-- Witness of amended C12: the index set of the range `[2, 8)` over an origin of ten
elements is traversed as the images of 0, ..., 5, and `begin() + 3` dereferences to the
image of 3. -/
theorem IndexSet.iteration_yields_at_witness :
    is_int 3 ∧ is_index_type (index (.sub array10 2 8)).size ∧
    ((index (.sub array10 2 8)).begin_.plus 3).deref = (index (.sub array10 2 8)).at_ 3 ∧
    (index (.sub array10 2 8)).traverse
      = (List.range (index (.sub array10 2 8)).size.toNat).map
          (fun k : Nat => (index (.sub array10 2 8)).at_ (k : Int)) :=
  have h := IndexSet.iteration_yields_at (index (.sub array10 2 8)) array10 0
  have h3 : is_int 3 := by unfold is_int; omega
  have hs : is_index_type (index (.sub array10 2 8)).size := by
    unfold is_index_type
    decide
  ⟨h3, hs, h.2.2.2.2.1 3 (by decide) (by decide) h3, (h.2.2.2.2.2.1 hs).1⟩

/-! ## The oracle of an index set -/

/-- The index set a view carries reports the oracle of the origin of the view. -/
theorem IndexSet.pattern_index (v : View) :
    (index v).base.pattern = (origin v).pattern := by
  cases v <;> rfl

/-- The local projection of a view has the origin of the view. -/
theorem origin_local_view (v : View) : origin (local_view v) = origin v := by
  cases v <;> rfl

/-- The domain of a view has the origin of the view. -/
theorem origin_domain (v : View) : origin (domain v) = origin v := by
  cases v <;> rfl

/-- C13: every index set constructed over a view `v`, of whichever class, reports as
`pattern()` the oracle of `origin(v)`; so index sets of views with the same origin report
the same oracle, at any nesting depth, and the index sets reached by `domain()`, by
`local()` and through iterators report it too. -/
theorem IndexSetBase.pattern_eq_origin_pattern (v v2 : View) (b e k : Int)
    (h : origin v = origin v2) :
    (IndexSetIdentity.construct v).pattern = (origin v).pattern ∧
    (IndexSetSub.construct v b e).pattern = (origin v).pattern ∧
    (IndexSetLocal.construct v).pattern = (origin v).pattern ∧
    (index v).base.pattern = (origin v).pattern ∧
    (index v).base.pattern = (index v2).base.pattern ∧
    (index (.sub v b e)).base.pattern = (index v).base.pattern ∧
    (index (.loc v)).base.pattern = (index v).base.pattern ∧
    (index v).base.domain.base.pattern = (origin v).pattern ∧
    (IndexSetSub.construct v b e).local_.base.pattern = (origin v).pattern ∧
    (IndexSetLocal.construct v).local_.pattern = (origin v).pattern ∧
    ((index v).begin_.plus k)._index_set.base.pattern = (origin v).pattern ∧
    (index v).end_.post_decrement._index_set.base.pattern = (origin v).pattern := by
  have hv := IndexSet.pattern_index v
  refine ⟨rfl, rfl, rfl, hv, ?_, ?_, ?_, ?_, ?_, rfl, hv, hv⟩
  · rw [hv, IndexSet.pattern_index v2, h]
  · rw [hv]; rfl
  · rw [hv]; rfl
  · have hd : (index v).base.domain = index (dash.domain v) := by cases v <;> rfl
    rw [hd, IndexSet.pattern_index, origin_domain]
  · show (index (local_view v)).base.pattern = (origin v).pattern
    rw [IndexSet.pattern_index, origin_local_view]

/-- Witness of C13: the index set of the local projection of a range of a range over an
origin of ten elements reports the same oracle as the Identity index set of the origin. -/
theorem IndexSetBase.pattern_eq_origin_pattern_witness :
    origin (.loc (.sub (.sub array10 2 8) 1 4)) = origin array10 ∧
    (index (.loc (.sub (.sub array10 2 8) 1 4))).base.pattern
      = (index array10).base.pattern :=
  ⟨rfl, (IndexSetBase.pattern_eq_origin_pattern (.loc (.sub (.sub array10 2 8) 1 4))
    array10 0 0 0 rfl).2.2.2.2.1⟩

/-! ## Round trip, monotonicity and independence of the view -/

/-- C18: for every Local index set `s` with oracle `P` and domain index set `D`, if the
round trip `P.global(P.at(D[0])) == D[0]` holds for the first global index of the domain,
then `s[0] == D[0]`. -/
theorem IndexSetLocal.at_zero_of_round_trip (s : IndexSetLocal)
    (h : s.pattern.global (s.pattern.at_ (s.domain.at_ 0)) = s.domain.at_ 0) :
    s.at_ 0 = s.domain.at_ 0 := by
  rw [IndexSetLocal.at_, Int.add_zero]
  exact h

/-- Witness of C18: over an origin of ten elements in blocks of five, seen from unit 1,
the domain of the local projection of the range `[5, 8)` starts at the global index 5,
which makes the round trip, and the local projection starts there too. -/
theorem IndexSetLocal.at_zero_of_round_trip_witness :
    (IndexSetLocal.construct (.loc (.sub array10 5 8))).domain.at_ 0 = 5 ∧
    (blocked_pattern 1 5).global ((blocked_pattern 1 5).at_ 5) = 5 ∧
    (IndexSetLocal.construct (.loc (.sub array10 5 8))).at_ 0
      = (IndexSetLocal.construct (.loc (.sub array10 5 8))).domain.at_ 0 :=
  have hd : (IndexSetLocal.construct (.loc (.sub array10 5 8))).domain.at_ 0 = 5 := by
    simp [IndexSetLocal.construct, IndexSetBase.construct, IndexSetBase.domain, domain,
      index, View.index_set, IndexSet.at_, IndexSetSub.at_, IndexSetSub.construct]
  have hp : (blocked_pattern 1 5).global ((blocked_pattern 1 5).at_ 5) = 5 := by
    simp [blocked_pattern]
  ⟨hd, hp, IndexSetLocal.at_zero_of_round_trip
    (IndexSetLocal.construct (.loc (.sub array10 5 8))) (by rw [hd]; exact hp)⟩

/-- C19: for every Range index set with `0 <= begin <= end <= domain().size()` the map
`i -> at(i)` is strictly increasing on `[0, size())`, injective there, and onto the
interval `[begin, end)`; every `at(i)` with `i` in `[0, size())` satisfies
`begin <= at(i) < end <= domain().size()`. -/
theorem IndexSetSub.at_strictly_increasing_onto (v : View) (begin_ end_ : Int)
    (h0 : 0 ≤ begin_) (hbe : begin_ ≤ end_)
    (hdom : end_ ≤ (IndexSetSub.construct v begin_ end_).domain.size) :
    (∀ i j : Int, 0 ≤ i → i < j → j < (IndexSetSub.construct v begin_ end_).size →
      (IndexSetSub.construct v begin_ end_).at_ i
        < (IndexSetSub.construct v begin_ end_).at_ j) ∧
    (∀ i j : Int, 0 ≤ i → i < (IndexSetSub.construct v begin_ end_).size →
      0 ≤ j → j < (IndexSetSub.construct v begin_ end_).size →
      (IndexSetSub.construct v begin_ end_).at_ i
        = (IndexSetSub.construct v begin_ end_).at_ j → i = j) ∧
    (∀ g : Int, begin_ ≤ g → g < end_ →
      ∃ i : Int, 0 ≤ i ∧ i < (IndexSetSub.construct v begin_ end_).size ∧
        (IndexSetSub.construct v begin_ end_).at_ i = g) ∧
    (∀ i : Int, 0 ≤ i → i < (IndexSetSub.construct v begin_ end_).size →
      begin_ ≤ (IndexSetSub.construct v begin_ end_).at_ i ∧
      (IndexSetSub.construct v begin_ end_).at_ i < end_ ∧
      0 ≤ (IndexSetSub.construct v begin_ end_).at_ i ∧
      (IndexSetSub.construct v begin_ end_).at_ i
        < (IndexSetSub.construct v begin_ end_).domain.size) ∧
    0 ≤ (IndexSetSub.construct v begin_ end_).size := by
  have hsize : (IndexSetSub.construct v begin_ end_).size = end_ - begin_ := rfl
  have hat : ∀ i : Int, (IndexSetSub.construct v begin_ end_).at_ i = begin_ + i :=
    fun _ => rfl
  refine ⟨fun i j _ hij _ => ?_, fun i j _ _ _ _ hEq => ?_, fun g hg1 hg2 => ?_,
    fun i hi0 hi => ?_, ?_⟩
  · rw [hat, hat]; omega
  · rw [hat, hat] at hEq; omega
  · exact ⟨g - begin_, by omega, by rw [hsize]; omega, by rw [hat]; omega⟩
  · rw [hsize] at hi
    rw [hat]
    exact ⟨by omega, by omega, by omega, by omega⟩
  · rw [hsize]; omega

/-- Witness of C19: for the range `[2, 8)` over an origin of ten elements, the image
indices 1 and 4 resolve to increasing indices, and the index 7 of `[2, 8)` is reached. -/
theorem IndexSetSub.at_strictly_increasing_onto_witness :
    (IndexSetSub.construct (.sub array10 2 8) 2 8).at_ 1
      < (IndexSetSub.construct (.sub array10 2 8) 2 8).at_ 4 ∧
    (∃ i : Int, 0 ≤ i ∧ i < (IndexSetSub.construct (.sub array10 2 8) 2 8).size ∧
      (IndexSetSub.construct (.sub array10 2 8) 2 8).at_ i = 7) :=
  have h := IndexSetSub.at_strictly_increasing_onto (.sub array10 2 8) 2 8
    (by decide) (by decide) (by decide)
  ⟨h.1 1 4 (by decide) (by decide) (by decide), h.2.2.1 7 (by decide) (by decide)⟩

/-- C20: `size()` and `at(i)` of a Range index set depend only on its `begin`, `end` and
`i`: two Range index sets constructed with the same bounds over any two views, or holding
the same bounds, return the same `size()` and the same `at(i)` for every `i`. -/
theorem IndexSetSub.size_at_independent_of_view (v1 v2 : View) (begin_ end_ i : Int)
    (s1 s2 : IndexSetSub) (hb : s1._domain_begin_idx = s2._domain_begin_idx)
    (he : s1._domain_end_idx = s2._domain_end_idx) :
    (IndexSetSub.construct v1 begin_ end_).size = (IndexSetSub.construct v2 begin_ end_).size ∧
    (IndexSetSub.construct v1 begin_ end_).at_ i = (IndexSetSub.construct v2 begin_ end_).at_ i ∧
    s1.size = s2.size ∧ s1.at_ i = s2.at_ i := by
  refine ⟨rfl, rfl, ?_, ?_⟩
  · rw [IndexSetSub.size, IndexSetSub.size, hb, he]
  · rw [IndexSetSub.at_, IndexSetSub.at_, hb]

/-- Witness of C20: the range `[1, 4)` constructed over an origin, over a Range view and
over a Local view has the same size and resolves the image index 2 alike. -/
theorem IndexSetSub.size_at_independent_of_view_witness :
    (IndexSetSub.construct array10 1 4).size
      = (IndexSetSub.construct (.sub array10 2 8) 1 4).size ∧
    (IndexSetSub.construct (.sub array10 2 8) 1 4).at_ 2
      = (IndexSetSub.construct (.loc array10) 1 4).at_ 2 :=
  ⟨(IndexSetSub.size_at_independent_of_view array10 (.sub array10 2 8) 1 4 2
      (IndexSetSub.construct array10 1 4) (IndexSetSub.construct (.sub array10 2 8) 1 4)
      rfl rfl).2.2.1,
   (IndexSetSub.size_at_independent_of_view array10 (.sub array10 2 8) 1 4 2
      (IndexSetSub.construct (.sub array10 2 8) 1 4) (IndexSetSub.construct (.loc array10) 1 4)
      rfl rfl).2.2.2⟩

/-! ## The reference proxy over an accessor that may fail -/

/-- Over any accessor whose operations may fail, a read through the proxy is the `fetch`
of its accessor. -/
theorem NSMRef.operator_T_eq_get_value {ε σ T : Type}
    (ops : AccessorOps (ExceptT ε (StateM σ)) T) (r : NSMRef) :
    r.operator_T ops = ops.get_value r.m_acc := by
  simp [NSMRef.operator_T]

/-- Over any accessor whose operations may fail, `dst = src` runs the fetch on `src` and,
only where it succeeds, the write of the fetched element to `dst`. -/
theorem NSMRef.operator_assign_ref_run {ε σ T : Type}
    (ops : AccessorOps (ExceptT ε (StateM σ)) T) (dst src : NSMRef) (s : σ) :
    (dst.operator_assign_ref ops src).run.run s
      = (match (ops.get_value src.m_acc).run.run s with
         | (Except.ok t, s2) => (dst.operator_assign ops t).run.run s2
         | (Except.error e, s2) => (Except.error e, s2)) := by
  simp only [NSMRef.operator_assign_ref, NSMRef.operator_T_eq_get_value]
  simp only [ExceptT.run_bind, StateT.run_bind]
  rcases hg : (ops.get_value src.m_acc).run.run s with ⟨r, s2⟩
  cases r <;> simp [hg]

/-- One `fetch` on the instrumented accessor that may fail, run from state `w`. -/
theorem fallible_get_value_run {T : Type} (acc : NonSequentialMemoryAccessor)
    (w : FallibleRemote T) :
    ((fallible T).get_value acc).run.run w
      = ((match w.mem acc with
          | some t => Except.ok t
          | none => Except.error (CommError.mk acc)),
         { mem := w.mem, log := w.log ++ [RemoteOp.fetch acc] }) :=
  rfl

/-- C14: over any accessor whose operations may fail, a read through the proxy is its one
`fetch`: same result or same error, same effect; a write is its one `store`, handing back
the proxy where the store succeeds and the store's error where it fails; in `dst = src` a
failing fetch on `src` is the outcome of the assignment and nothing follows it, and a
fetch that succeeds is followed by the write of the fetched element.  Over the
instrumented accessor a failing fetch on `src` leaves exactly one `fetch` in the log and
no `store`. -/
theorem NSMRef.accessor_errors_propagate {ε σ T : Type}
    (ops : AccessorOps (ExceptT ε (StateM σ)) T) (dst src : NSMRef) (v : T) (s : σ)
    (w : FallibleRemote T) :
    (src.operator_T ops).run.run s = (ops.get_value src.m_acc).run.run s ∧
    (dst.operator_assign ops v).run.run s
      = (((ops.put_value dst.m_acc v).run.run s).1.map (fun _ => dst),
         ((ops.put_value dst.m_acc v).run.run s).2) ∧
    (∀ (e : ε) (s2 : σ), (ops.get_value src.m_acc).run.run s = (Except.error e, s2) →
      (dst.operator_assign_ref ops src).run.run s = (Except.error e, s2)) ∧
    (∀ (t : T) (s2 : σ), (ops.get_value src.m_acc).run.run s = (Except.ok t, s2) →
      (dst.operator_assign_ref ops src).run.run s = (dst.operator_assign ops t).run.run s2) ∧
    (w.mem src.m_acc = none →
      (dst.operator_assign_ref (fallible T) src).run.run w
        = (Except.error (CommError.mk src.m_acc),
           { mem := w.mem, log := w.log ++ [RemoteOp.fetch src.m_acc] })) := by
  refine ⟨by rw [NSMRef.operator_T_eq_get_value], ?_, fun e s2 h => ?_, fun t s2 h => ?_,
    fun hw => ?_⟩
  · simp only [NSMRef.operator_assign]
    simp only [ExceptT.run_bind, StateT.run_bind]
    rcases hg : (ops.put_value dst.m_acc v).run.run s with ⟨r, s2⟩
    cases r <;> simp [hg, Except.map]
  · rw [NSMRef.operator_assign_ref_run, h]
  · rw [NSMRef.operator_assign_ref_run, h]
  · have hget : ((fallible T).get_value src.m_acc).run.run w
        = (Except.error (CommError.mk src.m_acc),
           { mem := w.mem, log := w.log ++ [RemoteOp.fetch src.m_acc] }) := by
      rw [fallible_get_value_run, hw]
    rw [NSMRef.operator_assign_ref_run, hget]

/-- Witness of C14: with every location unreachable, `dst = src` over the instrumented
accessor fails with the error of the fetch on `src`, and the log holds that fetch only. -/
theorem NSMRef.accessor_errors_propagate_witness :
    ((NSMRef.construct ⟨0, 1⟩).operator_assign_ref (fallible Nat)
        (NSMRef.construct ⟨1, 0⟩)).run.run { mem := fun _ => none, log := [] }
      = (Except.error (CommError.mk ⟨1, 0⟩),
         { mem := fun _ => none, log := [] ++ [RemoteOp.fetch ⟨1, 0⟩] }) :=
  (NSMRef.accessor_errors_propagate (fallible Nat) (NSMRef.construct ⟨0, 1⟩)
    (NSMRef.construct ⟨1, 0⟩) 0 { mem := fun _ => none, log := [] }
    { mem := fun _ => none, log := [] }).2.2.2.2 rfl

/-! ## The end-to-end scenario -/

/-- C16: for every two-dimensional origin and all bounds, `sub<1>(c0,c1, sub<0>(r0,r1, m))`
and `sub<0>(r0,r1, sub<1>(c0,c1, m))` have the extents `(r1-r0, c1-c0)`, the offsets
`(r0, c0)` and the same element sequence, the one `region_values` yields for the region
of `m` with these offsets and extents; rows `[1,3)` and columns `[2,7)` give the region
with offsets `(1,2)` and extents `(2,5)`. -/
theorem NView.sub_axes_commute {T : Type} (nrows ncols r0 r1 c0 c1 : Int)
    (elem : Int → T) :
    (NView.sub 1 c0 c1 (NView.sub 0 r0 r1 (NView.of_origin nrows ncols))).extents
      = (r1 - r0, c1 - c0) ∧
    (NView.sub 0 r0 r1 (NView.sub 1 c0 c1 (NView.of_origin nrows ncols))).extents
      = (r1 - r0, c1 - c0) ∧
    (NView.sub 1 c0 c1 (NView.sub 0 r0 r1 (NView.of_origin nrows ncols))).offsets
      = (r0, c0) ∧
    (NView.sub 0 r0 r1 (NView.sub 1 c0 c1 (NView.of_origin nrows ncols))).offsets
      = (r0, c0) ∧
    (NView.sub 1 c0 c1 (NView.sub 0 r0 r1 (NView.of_origin nrows ncols))).values elem
      = (NView.sub 0 r0 r1 (NView.sub 1 c0 c1 (NView.of_origin nrows ncols))).values elem ∧
    (NView.sub 1 c0 c1 (NView.sub 0 r0 r1 (NView.of_origin nrows ncols))).values elem
      = region_values (nrows, ncols) elem
          { offsets := (r0, c0), extents := (r1 - r0, c1 - c0) } ∧
    (NView.sub 1 2 7 (NView.sub 0 1 3 (NView.of_origin nrows ncols))).spec
      = { offsets := (1, 2), extents := (2, 5) } ∧
    (NView.sub 0 1 3 (NView.sub 1 2 7 (NView.of_origin nrows ncols))).spec
      = { offsets := (1, 2), extents := (2, 5) } := by
  have h10 : NView.sub 1 c0 c1 (NView.sub 0 r0 r1 (NView.of_origin nrows ncols))
      = { origin_extents := (nrows, ncols),
          spec := { offsets := (r0, c0), extents := (r1 - r0, c1 - c0) } } := by
    simp [NView.sub, NView.of_origin]
  have h01 : NView.sub 0 r0 r1 (NView.sub 1 c0 c1 (NView.of_origin nrows ncols))
      = { origin_extents := (nrows, ncols),
          spec := { offsets := (r0, c0), extents := (r1 - r0, c1 - c0) } } := by
    simp [NView.sub, NView.of_origin]
  refine ⟨by rw [h10]; rfl, by rw [h01]; rfl, by rw [h10]; rfl, by rw [h01]; rfl,
    by rw [h10, h01], ?_, ?_, ?_⟩
  · rw [h10]
    simp [NView.values, NView.indices, NView.size, NView.global_index, region_values]
  · simp [NView.sub, NView.of_origin]
  · simp [NView.sub, NView.of_origin]

/-! ## Injectivity and monotonicity of a Local index set -/

/-- C21: for every Local index set `s` with oracle `P`, `s[i]` is `P.global` applied to
a base offset that does not depend on `i`, plus `i`; so if `P.global` is injective on a
set of local offsets, `s[i] != s[j]` for all `i != j` whose offsets lie in the set, and if
`P.global` is strictly increasing there, `s[i] < s[j]` for all such `i < j`. -/
theorem IndexSetLocal.at_injective_of_global_injective (s : IndexSetLocal)
    (offsets : Set Int) :
    (∀ i : Int, s.at_ i = s.pattern.global (s.pattern.at_ (s.domain.at_ 0) + i)) ∧
    (Set.InjOn s.pattern.global offsets →
      ∀ i j : Int, s.pattern.at_ (s.domain.at_ 0) + i ∈ offsets →
        s.pattern.at_ (s.domain.at_ 0) + j ∈ offsets → i ≠ j → s.at_ i ≠ s.at_ j) ∧
    (StrictMonoOn s.pattern.global offsets →
      ∀ i j : Int, s.pattern.at_ (s.domain.at_ 0) + i ∈ offsets →
        s.pattern.at_ (s.domain.at_ 0) + j ∈ offsets → i < j → s.at_ i < s.at_ j) ∧
    (Function.Injective s.pattern.global → Function.Injective s.at_) ∧
    (StrictMono s.pattern.global → StrictMono s.at_) := by
  have hat : ∀ i : Int, s.at_ i = s.pattern.global (s.pattern.at_ (s.domain.at_ 0) + i) := by
    intro i
    rw [IndexSetLocal.at_]
  refine ⟨hat, fun hinj i j hi hj hne hEq => ?_, fun hmono i j hi hj hlt => ?_,
    fun hinj i j hEq => ?_, fun hmono i j hlt => ?_⟩
  · rw [hat, hat] at hEq
    exact hne (by have := hinj hi hj hEq; omega)
  · rw [hat, hat]
    exact hmono hi hj (by omega)
  · rw [hat, hat] at hEq
    have := hinj hEq
    omega
  · rw [hat, hat]
    exact hmono (by omega)

/-- Witness of C21: the oracle of an origin of ten elements in blocks of five, seen from
unit 1, is strictly increasing, hence injective, and so is the Local index set of the
local projection of the range `[5, 8)`: its image indices 0 and 2 resolve to different,
increasing global indices. -/
theorem IndexSetLocal.at_injective_of_global_injective_witness :
    StrictMono (blocked_pattern 1 5).global ∧
    (IndexSetLocal.construct (.loc (.sub array10 5 8))).at_ 0
      < (IndexSetLocal.construct (.loc (.sub array10 5 8))).at_ 2 ∧
    (IndexSetLocal.construct (.loc (.sub array10 5 8))).at_ 0
      ≠ (IndexSetLocal.construct (.loc (.sub array10 5 8))).at_ 2 :=
  have hmono : StrictMono (blocked_pattern 1 5).global := by
    intro a b hab
    simp only [blocked_pattern]
    omega
  have h := IndexSetLocal.at_injective_of_global_injective
    (IndexSetLocal.construct (.loc (.sub array10 5 8))) Set.univ
  ⟨hmono, h.2.2.2.2 hmono (by decide),
    fun hEq => absurd (h.2.2.2.1 hmono.injective hEq) (by decide)⟩

/-! ## Iterator arithmetic -/

/-- C22, as stated, fails: for the iterator `begin()` of an index set, at position 0,
`begin() + 2^31` is at position `-2^31` and `begin() - 2^31` at position `2^31`, and for
the two `int` values `i = j = 2^30`, `(begin() + i) + j` is at position `2^31` while
`begin() + (i + j)` is at position `-2^31`. -/
theorem IndexSetIterator.offsets_are_converted_to_int :
    ((index array10).begin_.plus 2147483648).pos = -2147483648 ∧
    ((index array10).begin_.plus 2147483648).pos
      ≠ (index array10).begin_.pos + 2147483648 ∧
    ((index array10).begin_.minus 2147483648).pos = 2147483648 ∧
    ((index array10).begin_.minus 2147483648).pos
      ≠ (index array10).begin_.pos - 2147483648 ∧
    is_int 1073741824 ∧
    (((index array10).begin_.plus 1073741824).plus 1073741824).pos = 2147483648 ∧
    ((index array10).begin_.plus (1073741824 + 1073741824)).pos = -2147483648 ∧
    (((index array10).begin_.plus 1073741824).plus 1073741824).pos
      ≠ ((index array10).begin_.plus (1073741824 + 1073741824)).pos := by
  refine ⟨by decide, by decide, by decide, by decide, ?_, by decide, by decide, by decide⟩
  unfold is_int
  omega

/-- C22, amended: for offsets that are values of `int` and positions that stay values of
`index_type`, iterator arithmetic is arithmetic on the position over the same index set:
`(it + i).pos() == it.pos() + i`, `(it - i).pos() == it.pos() - i`,
`((it + i) - i).pos() == it.pos()`; `(it + i) + j` is `it + (i + j)` where `i + j` is a
value of `int` too; `it++` and `it--` yield a new iterator at `pos() + 1` and
`pos() - 1`, the same as `it + 1` and `it - 1`, and leave `it` as it was. -/
theorem IndexSetIterator.arithmetic_is_position_arithmetic (it : IndexSetIterator)
    (i j : Int) (hi : is_int i) (hj : is_int j) :
    (is_index_type (it.pos + i) → (it.plus i).pos = it.pos + i) ∧
    (is_index_type (it.pos - i) → (it.minus i).pos = it.pos - i) ∧
    (is_index_type it.pos → is_index_type (it.pos + i) →
      ((it.plus i).minus i).pos = it.pos) ∧
    (is_int (i + j) → is_index_type (it.pos + i) → is_index_type (it.pos + i + j) →
      ((it.plus i).plus j).pos = (it.plus (i + j)).pos ∧
      ((it.plus i).plus j).pos = it.pos + (i + j) ∧
      (it.plus i).plus j = it.plus (i + j)) ∧
    (it.plus i)._index_set = it._index_set ∧ (it.minus i)._index_set = it._index_set ∧
    (is_index_type (it.pos + 1) → it.eval_post_increment.1.pos = it.pos + 1) ∧
    it.eval_post_increment.1 = it.plus 1 ∧
    it.eval_post_increment.2 = it ∧ it.eval_post_increment.2.pos = it.pos ∧
    (is_index_type (it.pos - 1) → it.eval_post_decrement.1.pos = it.pos - 1) ∧
    it.eval_post_decrement.1 = it.minus 1 ∧
    it.eval_post_decrement.2 = it ∧ it.eval_post_decrement.2.pos = it.pos := by
  have h1 : to_int 1 = 1 := by decide
  have hplus : is_index_type (it._pos + i) → (it.plus i)._pos = it._pos + i := by
    intro h
    simp only [IndexSetIterator.plus, IndexSetIterator.construct, to_int_of_is_int i hi]
    exact to_index_type_of_is_index_type _ h
  refine ⟨hplus, fun h => ?_, fun h0 h => ?_, fun hij h h2 => ?_, rfl, rfl, fun h => ?_, ?_,
    rfl, rfl, fun h => ?_, ?_, rfl, rfl⟩
  · simp only [IndexSetIterator.minus, IndexSetIterator.construct, IndexSetIterator.pos,
      to_int_of_is_int i hi]
    exact to_index_type_of_is_index_type _ h
  · have hb : is_index_type (it._pos + i - i) := by
      simp only [IndexSetIterator.pos] at h0
      rw [Int.add_sub_cancel]
      exact h0
    simp only [IndexSetIterator.minus, IndexSetIterator.construct, IndexSetIterator.pos,
      to_int_of_is_int i hi]
    have hp := hplus h
    rw [hp, to_index_type_of_is_index_type _ hb]
    omega
  · have hp := hplus h
    have hpj : ((it.plus i).plus j)._pos = it._pos + i + j := by
      simp only [IndexSetIterator.plus, IndexSetIterator.construct,
        to_int_of_is_int i hi, to_int_of_is_int j hj]
      have e1 : to_index_type (it._pos + i) = it._pos + i :=
        to_index_type_of_is_index_type _ h
      rw [e1]
      exact to_index_type_of_is_index_type _ h2
    have hq : (it.plus (i + j))._pos = it._pos + i + j := by
      simp only [IndexSetIterator.plus, IndexSetIterator.construct,
        to_int_of_is_int (i + j) hij]
      have e2 : it._pos + (i + j) = it._pos + i + j := by omega
      rw [e2]
      exact to_index_type_of_is_index_type _ h2
    refine ⟨?_, ?_, ?_⟩
    · show ((it.plus i).plus j)._pos = (it.plus (i + j))._pos
      rw [hpj, hq]
    · show ((it.plus i).plus j)._pos = it._pos + (i + j)
      rw [hpj]; omega
    · have hs : ((it.plus i).plus j)._index_set = (it.plus (i + j))._index_set := rfl
      cases hA : (it.plus i).plus j
      cases hB : it.plus (i + j)
      rw [hA] at hpj hs
      rw [hB] at hq hs
      simp only at hpj hq hs
      rw [hpj, hq, hs]
  · simp only [IndexSetIterator.eval_post_increment, IndexSetIterator.post_increment,
      IndexSetIterator.construct, IndexSetIterator.pos]
    exact to_index_type_of_is_index_type _ h
  · simp only [IndexSetIterator.eval_post_increment, IndexSetIterator.post_increment,
      IndexSetIterator.plus, h1]
  · simp only [IndexSetIterator.eval_post_decrement, IndexSetIterator.post_decrement,
      IndexSetIterator.construct, IndexSetIterator.pos]
    exact to_index_type_of_is_index_type _ h
  · simp only [IndexSetIterator.eval_post_decrement, IndexSetIterator.post_decrement,
      IndexSetIterator.minus, h1]

/-- Witness of amended C22: from `begin()` of the index set of an origin of ten elements,
the offsets 3 and 4 lead to the positions 3 and 7, in one step or in two. -/
theorem IndexSetIterator.arithmetic_is_position_arithmetic_witness :
    is_int 3 ∧ is_int 4 ∧ is_int (3 + 4) ∧
    ((index array10).begin_.plus 3).pos = (index array10).begin_.pos + 3 ∧
    (((index array10).begin_.plus 3).plus 4).pos
      = ((index array10).begin_.plus (3 + 4)).pos ∧
    (index array10).begin_.eval_post_increment.1.pos = (index array10).begin_.pos + 1 :=
  have h3 : is_int 3 := by unfold is_int; omega
  have h4 : is_int 4 := by unfold is_int; omega
  have h7 : is_int (3 + 4) := by unfold is_int; omega
  have h := IndexSetIterator.arithmetic_is_position_arithmetic (index array10).begin_ 3 4
    h3 h4
  ⟨h3, h4, h7, h.1 (by unfold is_index_type; decide),
    (h.2.2.2.1 h7 (by unfold is_index_type; decide) (by unfold is_index_type; decide)).1,
    h.2.2.2.2.2.2.1 (by unfold is_index_type; decide)⟩

/-! ## A proxy is never rebound -/

/-- One use of a proxy over the instrumented accessor hands the proxy back unchanged. -/
theorem NSMRef.use_run_fst {T : Type} (r : NSMRef) (u : ProxyUse T) (w : Remote T) :
    ((r.use (instrumented T) u).run w).1 = r := by
  cases u <;> rfl

/-- A sequence of uses of a proxy over the instrumented accessor hands the proxy back
unchanged. -/
theorem NSMRef.use_all_run_fst {T : Type} (r : NSMRef) (us : List (ProxyUse T))
    (w : Remote T) :
    ((r.use_all (instrumented T) us).run w).1 = r := by
  induction us generalizing w with
  | nil => rfl
  | cons u us ih =>
    have step : (r.use_all (instrumented T) (u :: us)).run w
        = ((((r.use (instrumented T) u).run w).1).use_all (instrumented T) us).run
            ((r.use (instrumented T) u).run w).2 := rfl
    rw [step, NSMRef.use_run_fst]
    exact ih _

/-- C23: `get_accessor()` returns the accessor the proxy was constructed with, and the
same accessor after any sequence of reads, value assignments and proxy-to-proxy
assignments; `dst = src` stores at the location of `dst` the element fetched from `src`
and leaves `dst` bound to its own accessor. -/
theorem NSMRef.never_rebound {T : Type} (acc : NonSequentialMemoryAccessor)
    (r dst src : NSMRef) (us : List (ProxyUse T)) (w : Remote T) :
    (NSMRef.construct acc).get_accessor = acc ∧
    ((r.use_all (instrumented T) us).run w).1.get_accessor = r.get_accessor ∧
    (((NSMRef.construct acc).use_all (instrumented T) us).run w).1.get_accessor = acc ∧
    ((dst.operator_assign_ref (instrumented T) src).run w).1.get_accessor
      = dst.get_accessor ∧
    ((dst.operator_assign_ref (instrumented T) src).run w).2.mem dst.get_accessor
      = w.mem src.get_accessor ∧
    (dst.get_accessor ≠ src.get_accessor →
      ((dst.operator_assign_ref (instrumented T) src).run w).1.get_accessor
        ≠ src.get_accessor) := by
  have hassign : (dst.operator_assign_ref (instrumented T) src).run w
      = (dst, { mem := Function.update w.mem dst.m_acc (w.mem src.m_acc),
                log := w.log ++ [RemoteOp.fetch src.m_acc,
                                 RemoteOp.store dst.m_acc (w.mem src.m_acc)] }) := by
    have step : (dst.operator_assign_ref (instrumented T) src).run w
        = (dst.operator_assign (instrumented T)
            ((src.operator_T (instrumented T)).run w).1).run
            ((src.operator_T (instrumented T)).run w).2 := rfl
    rw [step, NSMRef.operator_T_run]
    simp [NSMRef.operator_assign, instrumented, StateT.run, bind, StateT.bind, get, getThe,
      MonadStateOf.get, StateT.get, set, StateT.set, pure, StateT.pure]
  refine ⟨rfl, ?_, ?_, ?_, ?_, fun hne => ?_⟩
  · rw [NSMRef.use_all_run_fst]
  · rw [NSMRef.use_all_run_fst]; rfl
  · rw [hassign]
  · rw [hassign]
    simp [NSMRef.get_accessor]
  · rw [hassign]
    exact hne

/-- Witness of C23: after a read, the assignment of 7 and the assignment of a proxy bound
to another location, a proxy bound to offset 1 of unit 0 is still bound there, and not
to the location of the proxy assigned to it. -/
theorem NSMRef.never_rebound_witness :
    (((NSMRef.construct ⟨0, 1⟩).use_all (instrumented Nat)
        [ProxyUse.read, ProxyUse.assign 7, ProxyUse.assign_ref (NSMRef.construct ⟨1, 0⟩)]).run
        { mem := fun _ => 0, log := [] }).1.get_accessor = ⟨0, 1⟩ ∧
    (((NSMRef.construct ⟨0, 1⟩).operator_assign_ref (instrumented Nat)
        (NSMRef.construct ⟨1, 0⟩)).run { mem := fun _ => 0, log := [] }).1.get_accessor
      ≠ (NSMRef.construct ⟨1, 0⟩).get_accessor :=
  have h := NSMRef.never_rebound (T := Nat) ⟨0, 1⟩ (NSMRef.construct ⟨0, 1⟩)
    (NSMRef.construct ⟨0, 1⟩) (NSMRef.construct ⟨1, 0⟩)
    [ProxyUse.read, ProxyUse.assign 7, ProxyUse.assign_ref (NSMRef.construct ⟨1, 0⟩)]
    { mem := fun _ => 0, log := [] }
  ⟨h.2.2.1, h.2.2.2.2.2 (by decide)⟩

/-! ## Localization of an Identity index set -/

/-- C24: localizing an Identity index set is a no-op: `local(s)` is `s` itself, with
`local(s)[i] == i` and `local(s).size() == s.size()`, whatever oracle `s` holds; over an
origin of ten elements of which the calling unit owns five, `local(s)` still has size 10
and resolves the image index 0 to the global index 0, which another unit owns. -/
theorem IndexSetIdentity.local_is_identity (s : IndexSetIdentity) (p : Pattern) (i : Int) :
    local_IndexSetIdentity s = s ∧
    (local_IndexSetIdentity s).at_ i = i ∧
    (local_IndexSetIdentity s).size = s.size ∧
    (local_IndexSetIdentity { s with _pattern := p }).at_ i = (local_IndexSetIdentity s).at_ i ∧
    (local_IndexSetIdentity { s with _pattern := p }).size = (local_IndexSetIdentity s).size ∧
    (local_IndexSetIdentity (IndexSetIdentity.construct array10)).size = 10 ∧
    ((IndexSetIdentity.construct array10).pattern.local_size : Int) = 5 ∧
    (local_IndexSetIdentity (IndexSetIdentity.construct array10)).at_ 0 = 0 ∧
    (IndexSetIdentity.construct array10).pattern.global 0 = 5 := by
  refine ⟨rfl, rfl, rfl, rfl, rfl, rfl, rfl, rfl, ?_⟩
  simp [IndexSetIdentity.construct, IndexSetBase.construct, IndexSetBase.pattern, origin,
    array10, blocked_pattern]

end dash
